import Mathlib

/-
Verification of the challenge4 cascading admission-control pipeline:
the sliding-window rate counters of the throttle service (Gate) and the
echo service (Sink), the forward and echo HTTP handlers, the health
endpoints, and the caller service (LoadDriver) epoch ramp.

Timestamps are modelled as integers (milliseconds, as produced by
Date.now()); the state of each limiter is an explicit structure and every
mutating method is a state-passing function returning its result together
with the updated state.
-/

/-- Window length in milliseconds: the literal 60000 appearing as
`now - 60000` in every prune step of the source. -/
def windowDurationMs : Int := 60000

/-- The prune step shared by every method of both limiters:
`this.calls = this.calls.filter((timestamp) => timestamp > oneMinuteAgo)`
where `oneMinuteAgo = now - 60000`.  Keeps exactly the timestamps strictly
greater than `now - 60000`. -/
def prune (now : Int) (calls : List Int) : List Int :=
  calls.filter (fun timestamp => now - windowDurationMs < timestamp)

/-- State of the Throttler class of the throttle service (Gate):
the retained call timestamps, the capacity (`maxCallsPerMinute`, 4096 in
the deployed instance but kept as a field so properties can be stated for
every capacity), and the lifetime `throttledCount`. -/
structure Throttler where
  maxCallsPerMinute : Nat
  calls : List Int
  throttledCount : Nat
deriving Repr, DecidableEq

/-- The Throttler constructor: empty timestamp list, zero throttled count. -/
def Throttler.new (maxCallsPerMinute : Nat) : Throttler :=
  { maxCallsPerMinute := maxCallsPerMinute, calls := [], throttledCount := 0 }

/-- Throttler.canForward body (the critical section run under the
promise-chain lock): prune, compare against the capacity, then either
append `now` and admit, or bump `throttledCount` and reject. -/
def Throttler.canForward (t : Throttler) (now : Int) : Bool × Throttler :=
  let calls := prune now t.calls
  if calls.length < t.maxCallsPerMinute then
    (true, { t with calls := calls ++ [now] })
  else
    (false, { t with calls := calls, throttledCount := t.throttledCount + 1 })

/-- Throttler.getCurrentCount: prunes (mutating the stored list) and
returns the windowed count. -/
def Throttler.getCurrentCount (t : Throttler) (now : Int) : Nat × Throttler :=
  let calls := prune now t.calls
  (calls.length, { t with calls := calls })

/-- Throttler.getThrottledCount accessor. -/
def Throttler.getThrottledCount (t : Throttler) : Nat := t.throttledCount

/-- Throttler.getRemainingCapacity:
`Math.max(0, this.maxCallsPerMinute - this.getCurrentCount())`. -/
def Throttler.getRemainingCapacity (t : Throttler) (now : Int) : Int × Throttler :=
  let c := t.getCurrentCount now
  (max 0 ((t.maxCallsPerMinute : Int) - (c.1 : Int)), c.2)

/-- Sequential execution of a series of canForward calls (the order in
which the promise-chain lock serializes concurrent invocations), returning
the list of decisions and the final state. -/
def Throttler.run (t : Throttler) (times : List Int) : List Bool × Throttler :=
  match times with
  | [] => ([], t)
  | now :: rest =>
    let r := t.canForward now
    let rr := r.2.run rest
    (r.1 :: rr.1, rr.2)

/-- State of the RateLimiter class of the echo service (Sink): retained
timestamps and capacity (512 in the deployed instance).  Note it has no
rejected-call counter field at all. -/
structure RateLimiter where
  maxCallsPerMinute : Nat
  calls : List Int
deriving Repr, DecidableEq

/-- The RateLimiter constructor: empty timestamp list. -/
def RateLimiter.new (maxCallsPerMinute : Nat) : RateLimiter :=
  { maxCallsPerMinute := maxCallsPerMinute, calls := [] }

/-- RateLimiter.isAllowed: prune, compare against the capacity, then
either append `now` and allow, or reject (with no counter update: the
class has none). -/
def RateLimiter.isAllowed (r : RateLimiter) (now : Int) : Bool × RateLimiter :=
  let calls := prune now r.calls
  if calls.length < r.maxCallsPerMinute then
    (true, { r with calls := calls ++ [now] })
  else
    (false, { r with calls := calls })

/-- RateLimiter.getCurrentCount: prunes and returns the windowed count. -/
def RateLimiter.getCurrentCount (r : RateLimiter) (now : Int) : Nat × RateLimiter :=
  let calls := prune now r.calls
  (calls.length, { r with calls := calls })

/-- RateLimiter.getRemainingCapacity:
`Math.max(0, this.maxCallsPerMinute - this.getCurrentCount())`. -/
def RateLimiter.getRemainingCapacity (r : RateLimiter) (now : Int) : Int × RateLimiter :=
  let c := r.getCurrentCount now
  (max 0 ((r.maxCallsPerMinute : Int) - (c.1 : Int)), c.2)

/-- Sequential execution of a series of isAllowed calls. -/
def RateLimiter.run (r : RateLimiter) (times : List Int) : List Bool × RateLimiter :=
  match times with
  | [] => ([], r)
  | now :: rest =>
    let s := r.isAllowed now
    let ss := s.2.run rest
    (s.1 :: ss.1, ss.2)

/-- Outcome of the axios POST from the Gate to the Sink, as observed by
the forward handler: a 2xx response with a body, a non-2xx response
(axios throws an error carrying the status and a message), or a network
failure such as a timeout or connection refusal (axios throws an error
carrying only a message). -/
inductive SinkOutcome where
  | ok (body : String)
  | httpError (status : Nat) (msg : String)
  | networkError (msg : String)
deriving Repr, DecidableEq

/-- HTTP response sent back by the forward handler of the Gate: status
code plus the relevant JSON fields. -/
structure GateResponse where
  status : Nat
  error : Option String
  message : Option String
  throttledCount : Option Nat
  body : Option String
deriving Repr, DecidableEq

/-- The response computation of the forward handler: on a canForward
rejection it answers 429 Throttled; on admission it posts to the Sink and
answers 200 with the Sink body on success, while every thrown error (a
non-2xx Sink status such as its 429, or a transport failure) lands in the
same catch block answering 500 with error field Forwarding failed and the
message of the thrown error. -/
def forwardResponse (admitted : Bool) (throttledCount : Nat) (sink : SinkOutcome) :
    GateResponse :=
  if admitted then
    match sink with
    | SinkOutcome.ok body =>
        { status := 200, error := none, message := none, throttledCount := none,
          body := some body }
    | SinkOutcome.httpError _ msg =>
        { status := 500, error := some "Forwarding failed", message := some msg,
          throttledCount := none, body := none }
    | SinkOutcome.networkError msg =>
        { status := 500, error := some "Forwarding failed", message := some msg,
          throttledCount := none, body := none }
  else
    { status := 429, error := some "Throttled",
      message := some "Request rate exceeds 4,096 calls per minute",
      throttledCount := some throttledCount, body := none }

/-- Body of the echo handler response: either the request body echoed
back, or the fixed overload message. -/
inductive EchoBody (α : Type) where
  | echoed (body : α)
  | overload (message : String)
deriving Repr, DecidableEq

/-- The echo handler of the Sink: consult isAllowed; within the limit,
echo the received body back with status 200; over the limit, answer 429
with the fixed message Exceeding Limit. -/
def echoHandler {α : Type} (r : RateLimiter) (now : Int) (body : α) :
    (Nat × EchoBody α) × RateLimiter :=
  let res := r.isAllowed now
  if res.1 then ((200, EchoBody.echoed body), res.2)
  else ((429, EchoBody.overload "Exceeding Limit"), res.2)

/-- JSON scalar values appearing in the health responses. -/
inductive JVal where
  | s (v : String)
  | n (v : Int)
deriving Repr, DecidableEq

/-- The health endpoint of the Gate, as the ordered field list of its
JSON body; the getters are threaded in source order (getCurrentCount,
then getRemainingCapacity which prunes again, then getThrottledCount),
all observed at the single instant `now`.  The capacity field is the
literal 4096 of the source. -/
def throttleHealth (t : Throttler) (now : Int) : List (String × JVal) × Throttler :=
  let c := t.getCurrentCount now
  let rc := c.2.getRemainingCapacity now
  ([("status", JVal.s "ok"),
    ("service", JVal.s "Throttle Service"),
    ("port", JVal.n 4002),
    ("currentCalls", JVal.n (c.1 : Int)),
    ("remainingCapacity", JVal.n rc.1),
    ("throttledCount", JVal.n (rc.2.getThrottledCount : Int)),
    ("maxCallsPerMinute", JVal.n 4096)], rc.2)

/-- The health endpoint of the Sink: same shape as the Gate one except
that no rejected-count field exists (the RateLimiter tracks none) and the
capacity literal is 512. -/
def echoHealth (r : RateLimiter) (now : Int) : List (String × JVal) × RateLimiter :=
  let c := r.getCurrentCount now
  let rc := c.2.getRemainingCapacity now
  ([("status", JVal.s "ok"),
    ("service", JVal.s "Echo Service"),
    ("port", JVal.n 4003),
    ("currentCalls", JVal.n (c.1 : Int)),
    ("remainingCapacity", JVal.n rc.1),
    ("maxCallsPerMinute", JVal.n 512)], rc.2)

/-- One call of the caller service: issues the request with the given id
and records its outcome (`none` for success, `some msg` for a caught
transport error); makeCall never throws, so issuing is unconditional. -/
def makeCall (outcome : Nat → Option String) (callId : Nat) : Nat × Option String :=
  (callId, outcome callId)

/-- makeCalls of the caller service: issues `count` calls with ids
`startId + i` for `i = 0 .. count - 1`. -/
def makeCalls (outcome : Nat → Option String) (count startId : Nat) :
    List (Nat × Option String) :=
  (List.range count).map (fun i => makeCall outcome (startId + i))

/-- The main function of the caller service: four epochs of 16, 256,
4096 and 65536 calls, callId starting at 1 and advancing by the size of
each completed epoch.  The inter-epoch waiting does not affect which
calls are issued. -/
def driverRun (outcome : Nat → Option String) : List (List (Nat × Option String)) :=
  let e1 := makeCalls outcome 16 1
  let e2 := makeCalls outcome 256 (1 + 16)
  let e3 := makeCalls outcome 4096 (1 + 16 + 256)
  let e4 := makeCalls outcome 65536 (1 + 16 + 256 + 4096)
  [e1, e2, e3, e4]

/-! ### Helper lemmas about the prune step and sequential execution -/

theorem prune_eq_self {now : Int} {calls : List Int}
    (h : ∀ x ∈ calls, now - windowDurationMs < x) : prune now calls = calls :=
  List.filter_eq_self.mpr (fun a ha => decide_eq_true (h a ha))

theorem prune_length_le (now : Int) (calls : List Int) :
    (prune now calls).length ≤ calls.length :=
  List.length_filter_le _ _

theorem prune_prune (a b : Int) (l : List Int) :
    prune a (prune b l) = prune (max a b) l := by
  unfold prune
  rw [List.filter_filter]
  congr 1
  funext ts
  rcases le_total a b with h | h
  · rw [max_eq_right h]
    by_cases hb : b - windowDurationMs < ts
    · have ha : a - windowDurationMs < ts := by omega
      simp [ha, hb]
    · simp [hb]
  · rw [max_eq_left h]
    by_cases ha : a - windowDurationMs < ts
    · have hb : b - windowDurationMs < ts := by omega
      simp [ha, hb]
    · simp [ha]

/-- Result and state of a single canForward call when the pruned window
is strictly below capacity. -/
theorem Throttler.canForward_pos {t : Throttler} {now : Int}
    (h : (prune now t.calls).length < t.maxCallsPerMinute) :
    t.canForward now = (true, { t with calls := prune now t.calls ++ [now] }) := by
  simp [Throttler.canForward, h]

/-- Result and state of a single canForward call when the pruned window
is at (or above) capacity. -/
theorem Throttler.canForward_neg {t : Throttler} {now : Int}
    (h : ¬ (prune now t.calls).length < t.maxCallsPerMinute) :
    t.canForward now =
      (false, { t with calls := prune now t.calls, throttledCount := t.throttledCount + 1 }) := by
  simp [Throttler.canForward, h]

theorem Throttler.run_cons_eq (t : Throttler) (now : Int) (rest : List Int) :
    t.run (now :: rest) =
      ((t.canForward now).1 :: ((t.canForward now).2.run rest).1,
        ((t.canForward now).2.run rest).2) := rfl

theorem count_prune (now ts : Int) (calls : List Int) :
    (prune now calls).count ts =
      if now - windowDurationMs < ts then calls.count ts else 0 := by
  by_cases h : now - windowDurationMs < ts
  · rw [if_pos h]
    exact List.count_filter (decide_eq_true h)
  · rw [if_neg h]
    rw [List.count_eq_zero]
    intro hmem
    exact h (by simpa [prune] using (List.mem_filter.mp hmem).2)

theorem count_true_add_count_false (l : List Bool) :
    l.count true + l.count false = l.length := by
  induction l with
  | nil => simp
  | cons b l ih => cases b <;> simp [List.count_cons] <;> omega

theorem Throttler.run_length (times : List Int) :
    ∀ t : Throttler, (t.run times).1.length = times.length := by
  induction times with
  | nil => intro t; rfl
  | cons now rest ih => intro t; simp [Throttler.run, ih]

/-- Invariant preservation: if the retained list is within capacity it
stays within capacity across any sequence of canForward calls, and the
capacity field is never modified. -/
theorem Throttler.run_calls_le (times : List Int) :
    ∀ t : Throttler, t.calls.length ≤ t.maxCallsPerMinute →
      (t.run times).2.calls.length ≤ t.maxCallsPerMinute ∧
      (t.run times).2.maxCallsPerMinute = t.maxCallsPerMinute := by
  induction times with
  | nil => intro t h; exact ⟨h, rfl⟩
  | cons now rest ih =>
    intro t h
    rw [Throttler.run_cons_eq]
    by_cases hlt : (prune now t.calls).length < t.maxCallsPerMinute
    · rw [Throttler.canForward_pos hlt]
      have := ih { t with calls := prune now t.calls ++ [now] } (by simp; omega)
      simpa using this
    · rw [Throttler.canForward_neg hlt]
      have hle : (prune now t.calls).length ≤ t.maxCallsPerMinute :=
        le_trans (prune_length_le now t.calls) h
      have := ih { t with calls := prune now t.calls, throttledCount := t.throttledCount + 1 }
        (by simpa using hle)
      simpa using this

/-- Execution statistics of a sequence of canForward calls whose
timestamps all lie within one window of each other (and of every
timestamp already retained): no prune removes anything, so the counter
admits until full and rejects the rest. -/
theorem Throttler.run_inWindow (cap : Nat) (times : List Int) :
    ∀ t : Throttler, t.maxCallsPerMinute = cap →
      (∀ x ∈ t.calls, ∀ y ∈ times, y - windowDurationMs < x) →
      (∀ x ∈ times, ∀ y ∈ times, y - windowDurationMs < x) →
      (t.run times).1.count true = min (cap - t.calls.length) times.length ∧
      (t.run times).2.calls.length
        = t.calls.length + min (cap - t.calls.length) times.length ∧
      (t.run times).2.throttledCount
        = t.throttledCount + (times.length - min (cap - t.calls.length) times.length) ∧
      (t.run times).2.maxCallsPerMinute = cap := by
  induction times with
  | nil => intro t hcap _ _; simp [Throttler.run, hcap]
  | cons now rest ih =>
    intro t hcap hst hts
    have hpr : prune now t.calls = t.calls :=
      prune_eq_self (fun x hx => hst x hx now (List.mem_cons_self _ _))
    have hrest : ∀ x ∈ rest, ∀ y ∈ rest, y - windowDurationMs < x :=
      fun x hx y hy => hts x (List.mem_cons_of_mem _ hx) y (List.mem_cons_of_mem _ hy)
    by_cases hlt : t.calls.length < cap
    · have hlt2 : (prune now t.calls).length < t.maxCallsPerMinute := by
        rw [hpr, hcap]; exact hlt
      have hst2 : ∀ x ∈ t.calls ++ [now], ∀ y ∈ rest, y - windowDurationMs < x := by
        intro x hx y hy
        rcases List.mem_append.mp hx with hx | hx
        · exact hst x hx y (List.mem_cons_of_mem _ hy)
        · have : x = now := by simpa using hx
          subst this
          exact hts x (List.mem_cons_self _ _) y (List.mem_cons_of_mem _ hy)
      rw [Throttler.run_cons_eq, Throttler.canForward_pos hlt2, hpr]
      set t' : Throttler := { t with calls := t.calls ++ [now] } with ht'
      obtain ⟨h1, h2, h3, h4⟩ := ih t' (by simp [ht', hcap]) hst2 hrest
      have hl : t'.calls.length = t.calls.length + 1 := by simp [ht']
      have hc : t'.throttledCount = t.throttledCount := by simp [ht']
      rw [hl] at h1 h2 h3
      rw [hc] at h3
      refine ⟨?_, ?_, ?_, ?_⟩
      · simp only [List.count_cons, List.length_cons, h1]
        simp
        omega
      · simp only [List.length_cons, h2]
        omega
      · simp only [List.length_cons, h3]
        omega
      · exact h4
    · have hlt2 : ¬ (prune now t.calls).length < t.maxCallsPerMinute := by
        rw [hpr, hcap]; exact hlt
      rw [Throttler.run_cons_eq, Throttler.canForward_neg hlt2, hpr]
      set t' : Throttler := { t with calls := t.calls, throttledCount := t.throttledCount + 1 }
        with ht'
      obtain ⟨h1, h2, h3, h4⟩ := ih t' (by simp [ht', hcap])
        (fun x hx y hy => hst x hx y (List.mem_cons_of_mem _ hy)) hrest
      have hl : t'.calls.length = t.calls.length := by simp [ht']
      have hc : t'.throttledCount = t.throttledCount + 1 := by simp [ht']
      rw [hl] at h1 h2 h3
      rw [hc] at h3
      refine ⟨?_, ?_, ?_, ?_⟩
      · simp only [List.count_cons, List.length_cons, h1]
        simp
        omega
      · simp only [List.length_cons, h2]
        omega
      · simp only [List.length_cons, h3]
        omega
      · exact h4

/-! ### C1: a burst of capacity + N simultaneous calls admits exactly capacity -/

/-- C1: starting from an empty counter with capacity `cap`, a sequence of
`cap + N` canForward calls whose timestamps all lie within one 60-second
window of each other yields exactly `cap` admissions (true results) and
exactly `N` rejections (false results), with the throttled count ending
at `N`. -/
theorem throttler_burst_admits_exactly_capacity (cap N : Nat) (times : List Int)
    (hlen : times.length = cap + N)
    (hwin : ∀ x ∈ times, ∀ y ∈ times, y - windowDurationMs < x) :
    ((Throttler.new cap).run times).1.count true = cap ∧
    ((Throttler.new cap).run times).1.count false = N ∧
    ((Throttler.new cap).run times).2.throttledCount = N := by
  obtain ⟨h1, _, h3, _⟩ := Throttler.run_inWindow cap times (Throttler.new cap) rfl
    (by intro x hx; simp [Throttler.new] at hx) hwin
  have hlr := Throttler.run_length times (Throttler.new cap)
  have hcount := count_true_add_count_false ((Throttler.new cap).run times).1
  have hc0 : (Throttler.new cap).calls = [] := rfl
  have ht0 : (Throttler.new cap).throttledCount = 0 := rfl
  rw [hc0] at h1 h3
  rw [ht0] at h3
  simp only [List.length_nil, Nat.sub_zero, Nat.zero_add] at h1 h3
  rw [hlen] at h1 h3
  rw [min_eq_left (Nat.le_add_right cap N)] at h1 h3
  exact ⟨h1, by omega, by omega⟩

/-- C1 witness: capacity 1, N = 1, both calls at time 5. -/
theorem throttler_burst_admits_exactly_capacity_witness :
    (([(5 : Int), 5].length = 1 + 1) ∧
      (∀ x ∈ [(5 : Int), 5], ∀ y ∈ [(5 : Int), 5], y - windowDurationMs < x)) ∧
    (((Throttler.new 1).run [(5 : Int), 5]).1.count true = 1 ∧
      ((Throttler.new 1).run [(5 : Int), 5]).1.count false = 1 ∧
      ((Throttler.new 1).run [(5 : Int), 5]).2.throttledCount = 1) :=
  ⟨⟨by decide, by decide⟩,
    throttler_burst_admits_exactly_capacity 1 1 [5, 5] (by decide) (by decide)⟩

/-! ### C2: the windowed count never exceeds capacity after any call -/

/-- C2: for a sequence of canForward calls with monotonically
non-decreasing timestamps from an empty counter, immediately after each
call (in particular after each admitting call, at its own timestamp
`tcall`, and in fact over every trailing window position `T`) the number
of retained timestamps inside the trailing 60-second window never exceeds
the capacity. -/
theorem throttler_window_count_le_capacity (cap : Nat) (p rest : List Int) (tcall T : Int)
    (hmono : List.Chain' (fun a b => a ≤ b) (p ++ tcall :: rest))
    (hlast : ((Throttler.new cap).run (p ++ [tcall])).1.getLast? = some true) :
    (((Throttler.new cap).run (p ++ [tcall])).2.calls.filter
      (fun ts => T - windowDurationMs < ts)).length ≤ cap := by
  have h := Throttler.run_calls_le (p ++ [tcall]) (Throttler.new cap) (by simp [Throttler.new])
  exact le_trans (List.length_filter_le _ _) (by simpa [Throttler.new] using h.1)

/-- C2 witness: capacity 1, a single admitted call at time 0, window
observed at T = 0. -/
theorem throttler_window_count_le_capacity_witness :
    (List.Chain' (fun a b => a ≤ b) (([] : List Int) ++ (0 : Int) :: []) ∧
      ((Throttler.new 1).run (([] : List Int) ++ [(0 : Int)])).1.getLast? = some true) ∧
    (((Throttler.new 1).run (([] : List Int) ++ [(0 : Int)])).2.calls.filter
      (fun ts => (0 : Int) - windowDurationMs < ts)).length ≤ 1 :=
  ⟨⟨by simp, by decide⟩,
    throttler_window_count_le_capacity 1 [] [] 0 0 (by simp) (by decide)⟩

/-! ### C3: what tryAdmit discards at the window boundary -/

/-- The tryAdmit operation as the claim words it: discard exactly the
retained timestamps strictly OLDER than `now - windowDurationMs`, keeping
those equal to or newer than the boundary, then the same compare, append
or reject logic.  Defined only to be compared against the source
behaviour of Throttler.canForward. -/
def claimTryAdmitKeepBoundary (t : Throttler) (now : Int) : Bool × Throttler :=
  let kept := t.calls.filter (fun timestamp => now - windowDurationMs ≤ timestamp)
  if kept.length < t.maxCallsPerMinute then
    (true, { t with calls := kept ++ [now] })
  else
    (false, { t with calls := kept, throttledCount := t.throttledCount + 1 })

/-- C3 counterexample: capacity 1, one retained timestamp 0, call at
time 60000.  The timestamp 0 equals `now - windowDurationMs`, so it is
not older than the boundary; the claim keeps it and predicts a rejection,
but the code filters on strict greater-than, discards it, and admits. -/
theorem canForward_boundary_counterexample :
    Throttler.canForward ⟨1, [0], 0⟩ 60000 = (true, ⟨1, [60000], 0⟩) ∧
    claimTryAdmitKeepBoundary ⟨1, [0], 0⟩ 60000 = (false, ⟨1, [0], 1⟩) ∧
    (Throttler.canForward ⟨1, [0], 0⟩ 60000).1 ≠
      (claimTryAdmitKeepBoundary ⟨1, [0], 0⟩ 60000).1 := by decide

/-- C3 amended: tryAdmit discards exactly the retained timestamps at or
before `now - windowDurationMs` (older than OR EQUAL to the boundary),
keeping the strictly newer ones, stated through the multiplicity of every
timestamp; on the kept list it appends `now` and returns true when
strictly below capacity, otherwise it bumps the rejected counter (for the
Throttler) and returns false.  The RateLimiter branch behaves identically
except that it has no rejected counter to bump. -/
theorem canForward_prune_then_decide (t : Throttler) (r : RateLimiter) (now : Int) :
    (∀ ts : Int, (prune now t.calls).count ts =
      if now - windowDurationMs < ts then t.calls.count ts else 0) ∧
    t.canForward now =
      (if (prune now t.calls).length < t.maxCallsPerMinute then
        (true, { t with calls := prune now t.calls ++ [now] })
      else
        (false, { t with calls := prune now t.calls, throttledCount := t.throttledCount + 1 })) ∧
    r.isAllowed now =
      (if (prune now r.calls).length < r.maxCallsPerMinute then
        (true, { r with calls := prune now r.calls ++ [now] })
      else
        (false, { r with calls := prune now r.calls })) :=
  ⟨fun ts => count_prune now ts t.calls, rfl, rfl⟩

/-! ### C4: one free slot, two concurrent invocations, exactly one admits -/

/-- Result and state of a single isAllowed call when the pruned window
is strictly below capacity. -/
theorem RateLimiter.isAllowed_pos {r : RateLimiter} {now : Int}
    (h : (prune now r.calls).length < r.maxCallsPerMinute) :
    r.isAllowed now = (true, { r with calls := prune now r.calls ++ [now] }) := by
  simp [RateLimiter.isAllowed, h]

/-- Result and state of a single isAllowed call when the pruned window
is at (or above) capacity. -/
theorem RateLimiter.isAllowed_neg {r : RateLimiter} {now : Int}
    (h : ¬ (prune now r.calls).length < r.maxCallsPerMinute) :
    r.isAllowed now = (false, { r with calls := prune now r.calls }) := by
  simp [RateLimiter.isAllowed, h]

theorem RateLimiter.run_cons_allowed (r : RateLimiter) (now : Int) (rest : List Int) :
    r.run (now :: rest) =
      ((r.isAllowed now).1 :: ((r.isAllowed now).2.run rest).1,
        ((r.isAllowed now).2.run rest).2) := rfl

/-- Core of the one-slot argument: when the window pruned at either
timestamp holds exactly capacity minus one entries and the two timestamps
are mutually in-window, the first call sees a free slot and the second
sees a full window. -/
theorem one_slot_core (cap : Nat) (calls : List Int) (t1 t2 : Int)
    (h1 : (prune t1 calls).length + 1 = cap)
    (h2 : (prune t2 calls).length + 1 = cap)
    (h12 : t2 - windowDurationMs < t1) :
    (prune t1 calls).length < cap ∧
    ¬ (prune t2 (prune t1 calls ++ [t1])).length < cap := by
  refine ⟨by omega, ?_⟩
  have happ : prune t2 (prune t1 calls ++ [t1]) = prune t2 (prune t1 calls) ++ [t1] := by
    unfold prune
    rw [List.filter_append]
    simp [h12]
  rw [happ, List.length_append, prune_prune]
  rcases le_total t1 t2 with h | h
  · rw [max_eq_left h]
    simp
    omega
  · rw [max_eq_right h]
    simp
    omega

theorem Throttler.run_two_calls (t : Throttler) (a b : Int)
    (ha : (prune a t.calls).length < t.maxCallsPerMinute)
    (hb : ¬ (prune b (prune a t.calls ++ [a])).length < t.maxCallsPerMinute) :
    (t.run [a, b]).1 = [true, false] := by
  rw [Throttler.run_cons_eq, Throttler.canForward_pos ha]
  simp [Throttler.run, Throttler.canForward, hb]

theorem RateLimiter.run_two_calls_allowed (r : RateLimiter) (a b : Int)
    (ha : (prune a r.calls).length < r.maxCallsPerMinute)
    (hb : ¬ (prune b (prune a r.calls ++ [a])).length < r.maxCallsPerMinute) :
    (r.run [a, b]).1 = [true, false] := by
  rw [RateLimiter.run_cons_allowed, RateLimiter.isAllowed_pos ha]
  simp [RateLimiter.run, RateLimiter.isAllowed, hb]

/-- C4: concurrent tryAdmit invocations are serialized by the source (the
promise chain of the Throttler class; the synchronous single-threaded
execution of RateLimiter.isAllowed), so two concurrent invocations are
modelled as executing atomically one after the other in an arbitrary
order.  When the counter has exactly one free slot at either timestamp
and the two timestamps are mutually in-window, exactly one of the two
invocations admits in EVERY execution order, for the Throttler of the
Gate and the RateLimiter of the Sink alike: the second invocation
observes the post-insert count, never the same pre-insert count. -/
theorem tryAdmit_one_slot_admits_exactly_one (t : Throttler) (r : RateLimiter) (t1 t2 : Int)
    (ht1 : (prune t1 t.calls).length + 1 = t.maxCallsPerMinute)
    (ht2 : (prune t2 t.calls).length + 1 = t.maxCallsPerMinute)
    (hr1 : (prune t1 r.calls).length + 1 = r.maxCallsPerMinute)
    (hr2 : (prune t2 r.calls).length + 1 = r.maxCallsPerMinute)
    (h12 : t2 - windowDurationMs < t1) (h21 : t1 - windowDurationMs < t2) :
    (t.run [t1, t2]).1 = [true, false] ∧ (t.run [t2, t1]).1 = [true, false] ∧
    (r.run [t1, t2]).1 = [true, false] ∧ (r.run [t2, t1]).1 = [true, false] := by
  obtain ⟨hA, hB⟩ := one_slot_core t.maxCallsPerMinute t.calls t1 t2 ht1 ht2 h12
  obtain ⟨hC, hD⟩ := one_slot_core t.maxCallsPerMinute t.calls t2 t1 ht2 ht1 h21
  obtain ⟨hE, hF⟩ := one_slot_core r.maxCallsPerMinute r.calls t1 t2 hr1 hr2 h12
  obtain ⟨hG, hH⟩ := one_slot_core r.maxCallsPerMinute r.calls t2 t1 hr2 hr1 h21
  exact ⟨Throttler.run_two_calls t t1 t2 hA hB, Throttler.run_two_calls t t2 t1 hC hD,
    RateLimiter.run_two_calls_allowed r t1 t2 hE hF, RateLimiter.run_two_calls_allowed r t2 t1 hG hH⟩

/-- C4 witness: capacity 2 with one retained timestamp 0 (one slot
left), concurrent calls at times 1 and 2. -/
theorem tryAdmit_one_slot_admits_exactly_one_witness :
    ((prune 1 (Throttler.mk 2 [0] 0).calls).length + 1 = (Throttler.mk 2 [0] 0).maxCallsPerMinute ∧
      (prune 2 (Throttler.mk 2 [0] 0).calls).length + 1 = (Throttler.mk 2 [0] 0).maxCallsPerMinute ∧
      (prune 1 (RateLimiter.mk 2 [0]).calls).length + 1 = (RateLimiter.mk 2 [0]).maxCallsPerMinute ∧
      (prune 2 (RateLimiter.mk 2 [0]).calls).length + 1 = (RateLimiter.mk 2 [0]).maxCallsPerMinute ∧
      (2 : Int) - windowDurationMs < 1 ∧ (1 : Int) - windowDurationMs < 2) ∧
    (((Throttler.mk 2 [0] 0).run [1, 2]).1 = [true, false] ∧
      ((Throttler.mk 2 [0] 0).run [2, 1]).1 = [true, false] ∧
      ((RateLimiter.mk 2 [0]).run [1, 2]).1 = [true, false] ∧
      ((RateLimiter.mk 2 [0]).run [2, 1]).1 = [true, false]) :=
  ⟨⟨by decide, by decide, by decide, by decide, by decide, by decide⟩,
    tryAdmit_one_slot_admits_exactly_one (Throttler.mk 2 [0] 0) (RateLimiter.mk 2 [0]) 1 2
      (by decide) (by decide) (by decide) (by decide) (by decide) (by decide)⟩

/-! ### C5: which failures the forward handler keeps distinguishable -/

/-- C5 counterexample: a Sink 429 overload reply and a Sink network
failure that carry the same error message produce identical Gate
responses (both 500 with error field Forwarding failed), even though the
two sink outcomes differ; the handler itself adds no distinguishing
information, so a rejection caused by Sink overload is not distinguishable
by the caller from the Sink failing to respond. -/
theorem forward_sink_overload_indistinguishable :
    forwardResponse true 0 (SinkOutcome.httpError 429 "failure") =
      forwardResponse true 0 (SinkOutcome.networkError "failure") ∧
    SinkOutcome.httpError 429 "failure" ≠ SinkOutcome.networkError "failure" := by
  exact ⟨rfl, by decide⟩

/-- C5 amended: the capacity rejection of the Gate itself is
distinguishable from every forwarding failure (429 with error Throttled
versus 500 with error Forwarding failed), but the Sink 429 and a
transport failure are surfaced identically as 500 Forwarding failed:
only the pass-through message of the thrown error can differ. -/
theorem forward_status_classification (tc : Nat) (sink : SinkOutcome)
    (b m m2 : String) (s : Nat) :
    (forwardResponse false tc sink).status = 429 ∧
    (forwardResponse false tc sink).error = some "Throttled" ∧
    (forwardResponse false tc sink).throttledCount = some tc ∧
    (forwardResponse true tc (SinkOutcome.ok b)).status = 200 ∧
    (forwardResponse true tc (SinkOutcome.ok b)).body = some b ∧
    (forwardResponse true tc (SinkOutcome.httpError s m)).status = 500 ∧
    (forwardResponse true tc (SinkOutcome.httpError s m)).error = some "Forwarding failed" ∧
    (forwardResponse true tc (SinkOutcome.networkError m2)).status = 500 ∧
    (forwardResponse true tc (SinkOutcome.networkError m2)).error = some "Forwarding failed" :=
  ⟨rfl, rfl, rfl, rfl, rfl, rfl, rfl, rfl, rfl⟩

/-! ### C6: the epoch ramp of the caller service -/

theorem makeCalls_ids (outcome : Nat → Option String) (count startId : Nat) :
    (makeCalls outcome count startId).map Prod.fst = List.range' startId count := by
  simp [makeCalls, makeCall, List.map_map, List.range'_eq_map_range]

theorem makeCalls_length (outcome : Nat → Option String) (count startId : Nat) :
    (makeCalls outcome count startId).length = count := by
  simp [makeCalls]

/-- C6: for every assignment of per-call outcomes (success or caught
transport error), the driver issues exactly 16, 256, 4096 and 65536
requests in epochs 1 to 4 carrying ids 1..16, 17..272, 273..4368 and
4369..69904 respectively, 69904 issued calls in total: a failed
individual call never reduces the issued count. -/
theorem driver_epoch_determinism (outcome : Nat → Option String) :
    (driverRun outcome).map (fun e => e.map Prod.fst) =
      [List.range' 1 16, List.range' 17 256, List.range' 273 4096, List.range' 4369 65536] ∧
    (driverRun outcome).map List.length = [16, 256, 4096, 65536] ∧
    ((driverRun outcome).flatten.map Prod.fst) = List.range' 1 69904 ∧
    (driverRun outcome).flatten.length = 69904 := by
  have e1 := makeCalls_ids outcome 16 1
  have e2 := makeCalls_ids outcome 256 17
  have e3 := makeCalls_ids outcome 4096 273
  have e4 := makeCalls_ids outcome 65536 4369
  have l1 := makeCalls_length outcome 16 1
  have l2 := makeCalls_length outcome 256 17
  have l3 := makeCalls_length outcome 4096 273
  have l4 := makeCalls_length outcome 65536 4369
  have hjoin : List.range' 1 16 ++ (List.range' 17 256 ++ (List.range' 273 4096 ++
      List.range' 4369 65536)) = List.range' 1 69904 := by
    rw [show (69904 : Nat) = 16 + (256 + (4096 + 65536)) by norm_num,
      ← List.range'_append_1 1 16 (256 + (4096 + 65536)),
      ← List.range'_append_1 17 256 (4096 + 65536),
      ← List.range'_append_1 273 4096 65536]
  refine ⟨?_, ?_, ?_, ?_⟩
  · simp only [driverRun, List.map_cons, List.map_nil]
    rw [show (1 + 16 : Nat) = 17 by norm_num, show (1 + 16 + 256 : Nat) = 273 by norm_num,
      show (1 + 16 + 256 + 4096 : Nat) = 4369 by norm_num]
    rw [e1, e2, e3, e4]
  · simp only [driverRun, List.map_cons, List.map_nil]
    rw [show (1 + 16 : Nat) = 17 by norm_num, show (1 + 16 + 256 : Nat) = 273 by norm_num,
      show (1 + 16 + 256 + 4096 : Nat) = 4369 by norm_num]
    rw [l1, l2, l3, l4]
  · simp only [driverRun, List.flatten_cons, List.flatten_nil, List.map_append,
      List.append_nil]
    rw [show (1 + 16 : Nat) = 17 by norm_num, show (1 + 16 + 256 : Nat) = 273 by norm_num,
      show (1 + 16 + 256 + 4096 : Nat) = 4369 by norm_num]
    rw [e1, e2, e3, e4]
    exact hjoin
  · simp only [driverRun, List.flatten_cons, List.flatten_nil, List.length_append,
      List.append_nil]
    rw [show (1 + 16 : Nat) = 17 by norm_num, show (1 + 16 + 256 : Nat) = 273 by norm_num,
      show (1 + 16 + 256 + 4096 : Nat) = 4369 by norm_num]
    rw [l1, l2, l3, l4]

/-! ### C7: rejection leaves the admitted window untouched -/

/-- C7: whenever canForward (or isAllowed) returns false, the retained
timestamps lying within the trailing window are exactly the ones that
were there before (stated as equality of the in-window filtrate), nothing
is appended (every timestamp multiplicity can only shrink), and the only
other state change is the throttled counter of the Throttler increasing
by one; the RateLimiter has no rejected counter, and its capacity field
is likewise untouched. -/
theorem rejected_tryAdmit_is_pure_rejection (t : Throttler) (r : RateLimiter) (now : Int)
    (ht : (t.canForward now).1 = false) (hr : (r.isAllowed now).1 = false) :
    ((t.canForward now).2.calls.filter (fun ts => now - windowDurationMs < ts) =
      t.calls.filter (fun ts => now - windowDurationMs < ts)) ∧
    (∀ ts : Int, (t.canForward now).2.calls.count ts ≤ t.calls.count ts) ∧
    (t.canForward now).2.throttledCount = t.throttledCount + 1 ∧
    (t.canForward now).2.maxCallsPerMinute = t.maxCallsPerMinute ∧
    ((r.isAllowed now).2.calls.filter (fun ts => now - windowDurationMs < ts) =
      r.calls.filter (fun ts => now - windowDurationMs < ts)) ∧
    (∀ ts : Int, (r.isAllowed now).2.calls.count ts ≤ r.calls.count ts) ∧
    (r.isAllowed now).2.maxCallsPerMinute = r.maxCallsPerMinute := by
  have hct : ¬ (prune now t.calls).length < t.maxCallsPerMinute := by
    intro h
    rw [Throttler.canForward_pos h] at ht
    simp at ht
  have hcr : ¬ (prune now r.calls).length < r.maxCallsPerMinute := by
    intro h
    rw [RateLimiter.isAllowed_pos h] at hr
    simp at hr
  rw [Throttler.canForward_neg hct, RateLimiter.isAllowed_neg hcr]
  refine ⟨?_, ?_, rfl, rfl, ?_, ?_, rfl⟩
  · show (prune now t.calls).filter _ = _
    simp [prune, List.filter_filter]
  · intro ts
    exact List.Sublist.count_le (List.filter_sublist _) ts
  · show (prune now r.calls).filter _ = _
    simp [prune, List.filter_filter]
  · intro ts
    exact List.Sublist.count_le (List.filter_sublist _) ts

/-- C7 witness: capacity 0, so the call at time 0 is rejected on both
counters. -/
theorem rejected_tryAdmit_is_pure_rejection_witness :
    (((Throttler.mk 0 [] 0).canForward 0).1 = false ∧
      ((RateLimiter.mk 0 []).isAllowed 0).1 = false) ∧
    ((((Throttler.mk 0 [] 0).canForward 0).2.calls.filter
        (fun ts => (0 : Int) - windowDurationMs < ts) =
      (Throttler.mk 0 [] 0).calls.filter (fun ts => (0 : Int) - windowDurationMs < ts)) ∧
    (∀ ts : Int, ((Throttler.mk 0 [] 0).canForward 0).2.calls.count ts ≤
      (Throttler.mk 0 [] 0).calls.count ts) ∧
    ((Throttler.mk 0 [] 0).canForward 0).2.throttledCount = (Throttler.mk 0 [] 0).throttledCount + 1 ∧
    ((Throttler.mk 0 [] 0).canForward 0).2.maxCallsPerMinute = (Throttler.mk 0 [] 0).maxCallsPerMinute ∧
    (((RateLimiter.mk 0 []).isAllowed 0).2.calls.filter
        (fun ts => (0 : Int) - windowDurationMs < ts) =
      (RateLimiter.mk 0 []).calls.filter (fun ts => (0 : Int) - windowDurationMs < ts)) ∧
    (∀ ts : Int, ((RateLimiter.mk 0 []).isAllowed 0).2.calls.count ts ≤
      (RateLimiter.mk 0 []).calls.count ts) ∧
    ((RateLimiter.mk 0 []).isAllowed 0).2.maxCallsPerMinute = (RateLimiter.mk 0 []).maxCallsPerMinute) :=
  ⟨⟨by decide, by decide⟩,
    rejected_tryAdmit_is_pure_rejection (Throttler.mk 0 [] 0) (RateLimiter.mk 0 []) 0
      (by decide) (by decide)⟩

/-! ### C8: the echo endpoint echoes on admission and signals overload -/

/-- C8: the echo handler of the Sink returns 200 with the received body
echoed unchanged exactly when the windowed count of its RateLimiter is
strictly below capacity, and 429 with the fixed body message Exceeding
Limit otherwise; its state is exactly the isAllowed successor state. -/
theorem echo_admits_or_rejects {α : Type} (r : RateLimiter) (now : Int) (body : α) :
    (echoHandler r now body).1 =
      (if (prune now r.calls).length < r.maxCallsPerMinute then (200, EchoBody.echoed body)
       else (429, EchoBody.overload "Exceeding Limit")) ∧
    (echoHandler r now body).2 = (r.isAllowed now).2 := by
  constructor
  · by_cases h : (prune now r.calls).length < r.maxCallsPerMinute
    · rw [if_pos h]
      simp [echoHandler, RateLimiter.isAllowed_pos h]
    · rw [if_neg h]
      simp [echoHandler, RateLimiter.isAllowed_neg h]
  · simp only [echoHandler]
    split <;> rfl

/-! ### C9: what the health endpoints actually expose -/

/-- C9 counterexample: the health endpoint of the Sink exposes exactly
the keys status, service, port, currentCalls, remainingCapacity and
maxCallsPerMinute; no rejected-count key of any name is present (the
RateLimiter does not even track rejections), contradicting the claim
that both services expose a lifetime rejected count. -/
theorem echoHealth_no_rejected_count_field :
    ((echoHealth (RateLimiter.new 512) 0).1.map Prod.fst).contains "rejectedCount" = false ∧
    ((echoHealth (RateLimiter.new 512) 0).1.map Prod.fst).contains "throttledCount" = false ∧
    (echoHealth (RateLimiter.new 512) 0).1.map Prod.fst =
      ["status", "service", "port", "currentCalls", "remainingCapacity",
        "maxCallsPerMinute"] :=
  ⟨rfl, rfl, rfl⟩

/-- C9 amended: the Gate health response carries the windowed count, the
remaining capacity, the lifetime throttled count and the capacity limit;
the Sink health response carries the windowed count, the remaining
capacity and the capacity limit, but no rejected count (its limiter
tracks none). -/
theorem health_snapshot_fields (t : Throttler) (r : RateLimiter) (now : Int) :
    (throttleHealth t now).1.map Prod.fst =
      ["status", "service", "port", "currentCalls", "remainingCapacity",
        "throttledCount", "maxCallsPerMinute"] ∧
    (("currentCalls", JVal.n ((t.getCurrentCount now).1 : Int)) ∈ (throttleHealth t now).1) ∧
    (("remainingCapacity", JVal.n (((t.getCurrentCount now).2.getRemainingCapacity now).1))
      ∈ (throttleHealth t now).1) ∧
    (("throttledCount", JVal.n (t.getThrottledCount : Int)) ∈ (throttleHealth t now).1) ∧
    (("maxCallsPerMinute", JVal.n 4096) ∈ (throttleHealth t now).1) ∧
    (echoHealth r now).1.map Prod.fst =
      ["status", "service", "port", "currentCalls", "remainingCapacity",
        "maxCallsPerMinute"] ∧
    (("currentCalls", JVal.n ((r.getCurrentCount now).1 : Int)) ∈ (echoHealth r now).1) ∧
    (("remainingCapacity", JVal.n (((r.getCurrentCount now).2.getRemainingCapacity now).1))
      ∈ (echoHealth r now).1) ∧
    (("maxCallsPerMinute", JVal.n 512) ∈ (echoHealth r now).1) ∧
    ((echoHealth r now).1.map Prod.fst).contains "rejectedCount" = false ∧
    ((echoHealth r now).1.map Prod.fst).contains "throttledCount" = false := by
  refine ⟨rfl, ?_, ?_, ?_, ?_, rfl, ?_, ?_, ?_, rfl, rfl⟩ <;>
    simp [throttleHealth, echoHealth, Throttler.getThrottledCount,
      Throttler.getCurrentCount, Throttler.getRemainingCapacity,
      RateLimiter.getCurrentCount, RateLimiter.getRemainingCapacity]

/-! ### C10: remaining capacity is the exact complement of the count -/

/-- C10: on every counter reachable from the empty Throttler by
canForward calls with monotonically non-decreasing timestamps, queried at
any time `now` at or after the last call, getRemainingCapacity equals
capacity minus getCurrentCount and is never negative: the Math.max(0, -)
clamp never engages because the windowed count never exceeds capacity. -/
theorem remaining_capacity_complements_count (cap : Nat) (times : List Int) (now : Int)
    (hmono : List.Chain' (fun a b => a ≤ b) times)
    (hnow : ∀ x ∈ times, x ≤ now) :
    (((Throttler.new cap).run times).2.getRemainingCapacity now).1 =
      (cap : Int) - ((((Throttler.new cap).run times).2.getCurrentCount now).1 : Int) ∧
    0 ≤ (((Throttler.new cap).run times).2.getRemainingCapacity now).1 := by
  obtain ⟨hlen, hmax⟩ :=
    Throttler.run_calls_le times (Throttler.new cap) (by simp [Throttler.new])
  have hcap : (Throttler.new cap).maxCallsPerMinute = cap := rfl
  rw [hcap] at hlen hmax
  have hcnt : (((Throttler.new cap).run times).2.getCurrentCount now).1 ≤ cap :=
    le_trans (prune_length_le now _) hlen
  simp only [Throttler.getRemainingCapacity, Throttler.getCurrentCount] at hcnt ⊢
  rw [hmax]
  omega

/-- C10 witness: capacity 1, one call at time 0, queried at time 0. -/
theorem remaining_capacity_complements_count_witness :
    (List.Chain' (fun a b => a ≤ b) [(0 : Int)] ∧ (∀ x ∈ [(0 : Int)], x ≤ (0 : Int))) ∧
    ((((Throttler.new 1).run [(0 : Int)]).2.getRemainingCapacity 0).1 =
      (1 : Int) - ((((Throttler.new 1).run [(0 : Int)]).2.getCurrentCount 0).1 : Int) ∧
    0 ≤ (((Throttler.new 1).run [(0 : Int)]).2.getRemainingCapacity 0).1) :=
  ⟨⟨by simp, by decide⟩,
    remaining_capacity_complements_count 1 [0] 0 (by simp) (by decide)⟩
